import Mathlib

/-
Verification of the EMI calculator core (src/src/App.js).

The repository is a single-page React EMI (equated monthly installment)
calculator.  Its core is:
  * three controlled-input change handlers (`handleLoanAmountChange`,
    `handleInterestRateChange`, `handleLoanTenureChange`, App.js lines 22-52)
    that admit or reject each keystroke;
  * `validateInputs` (lines 58-83) checking emptiness, numericness and
    positivity of the three stored strings;
  * `calculateEMI` (lines 89-136) which validates, parses, computes the EMI
    via EMI = P*R*(1+R)^N / ((1+R)^N - 1) (special-casing R = 0) and stores
    the result together with a visibility flag.

Embedding conventions:
  * JavaScript numbers are modelled as exact rationals (ℚ).  All quantities
    appearing in the spec's claims are far inside the range where binary64
    arithmetic is sign- and comparison-faithful for the tested predicates.
  * `parseFloat` is modelled on the decimal-literal fragment it is actually
    applied to: leading whitespace, optional sign, digits, optional '.',
    digits, optional decimal exponent, longest-prefix semantics; a string
    with no digits in its literal prefix parses to `none` (JS NaN).
  * `Math.pow (1+R) N` is modelled for natural exponents N; every tenure
    string the UI admits is a digit string, so this covers all reachable
    calls.
  * `validateInputs` returns `Except ValidationError LoanInput`, the spec's
    error taxonomy: the alerts "Please fill in all fields" /
    "Please enter valid numeric values" / "Please enter positive values only"
    are `MissingField` / `NotNumeric` / `NonPositive`.
-/

namespace EMI

/-- Decimal value of a digit list, most significant first (the value a digit
string denotes; used by the `parseFloat` / `parseInt` models). -/
def natFromDigits (l : List Char) : ℕ :=
  l.foldl (fun a c => 10 * a + (c.toNat - 48)) 0

/-- The JS regex test `/^\d+$/.test value` : non-empty and all digits. -/
def allDigits (l : List Char) : Bool :=
  !l.isEmpty && l.all Char.isDigit

/-- Consume an optional leading sign; returns (isNegative, rest). -/
def parseSign (l : List Char) : Bool × List Char :=
  match l with
  | [] => (false, [])
  | c :: rest =>
    if c = '+' then (false, rest)
    else if c = '-' then (true, rest)
    else (false, l)

/-- Signed decimal exponent after an 'e'/'E' (missing digits mean 0, matching
JS longest-valid-prefix parsing of "1e"). -/
def parseExpSigned (l : List Char) : ℤ :=
  let s := parseSign l
  let ds := s.2.takeWhile Char.isDigit
  if s.1 then -(natFromDigits ds : ℤ) else (natFromDigits ds : ℤ)

/-- Core of the JS `parseFloat` model on an explicit character list (leading
whitespace already removed): optional sign, integer digits, optional '.' and
fraction digits, optional exponent; `none` when no digit occurs (JS NaN).
Trailing junk is ignored (longest-prefix semantics). -/
def parseFloatCore (l : List Char) : Option ℚ :=
  let s := parseSign l
  let ds := s.2.takeWhile Char.isDigit
  let r1 := s.2.dropWhile Char.isDigit
  let fs := match r1 with
    | '.' :: rest => rest.takeWhile Char.isDigit
    | _ => []
  let r2 := match r1 with
    | '.' :: rest => rest.dropWhile Char.isDigit
    | _ => r1
  if ds.isEmpty && fs.isEmpty then none
  else
    let mant : ℚ := (natFromDigits ds : ℚ) + (natFromDigits fs : ℚ) / 10 ^ fs.length
    let e : ℤ := match r2 with
      | 'e' :: rest => parseExpSigned rest
      | 'E' :: rest => parseExpSigned rest
      | _ => 0
    let v := mant * (10 : ℚ) ^ e
    some (if s.1 then -v else v)

/-- JS `parseFloat` on a string: skip leading whitespace, then parse the
longest decimal-literal prefix; `none` models NaN. -/
def parseFloat (s : String) : Option ℚ :=
  parseFloatCore (s.data.dropWhile Char.isWhitespace)

/-- JS `parseInt` (radix 10) model: skip whitespace, optional sign, leading
digits; `none` models NaN. -/
def parseIntJs (s : String) : Option ℤ :=
  let l := s.data.dropWhile Char.isWhitespace
  let sg := parseSign l
  let ds := sg.2.takeWhile Char.isDigit
  if ds.isEmpty then none
  else if sg.1 then some (-(natFromDigits ds : ℤ)) else some (natFromDigits ds : ℤ)

/-- JS comparison `x <= b` where `x` may be NaN (`none`): NaN compares false. -/
def jsLe (x : Option ℚ) (b : ℚ) : Bool :=
  match x with
  | none => false
  | some q => q ≤ b

/-- JS comparison `n <= b` for a possibly-NaN `parseInt` result. -/
def jsLeInt (x : Option ℤ) (b : ℤ) : Bool :=
  match x with
  | none => false
  | some n => n ≤ b

/-- The JS regex test `/^\d*\.?\d{0,2}$/.test value` : digits, then an
optional dot followed by at most two digits. -/
def rateShape (l : List Char) : Bool :=
  match l.dropWhile Char.isDigit with
  | [] => true
  | '.' :: rest => rest.all Char.isDigit && rest.length ≤ 2
  | _ => false

/-- Acceptance condition of `handleLoanAmountChange` (App.js lines 22-28):
empty, or all digits with at most 7 characters. -/
def acceptAmount (v : String) : Bool :=
  v == "" || (allDigits v.data && v.data.length ≤ 7)

/-- `handleLoanAmountChange` (App.js lines 22-28) as a function from the
stored string and the entered value to the new stored string. -/
def handleLoanAmountChange (cur v : String) : String :=
  if acceptAmount v then v else cur

/-- Acceptance condition of `handleInterestRateChange` (App.js lines 34-40):
empty, or `parseFloat value <= 100` (false on NaN) and the decimal shape with
at most two fraction digits. -/
def acceptRate (v : String) : Bool :=
  v == "" || (jsLe (parseFloat v) 100 && rateShape v.data)

/-- `handleInterestRateChange` (App.js lines 34-40). -/
def handleInterestRateChange (cur v : String) : String :=
  if acceptRate v then v else cur

/-- Acceptance condition of `handleLoanTenureChange` (App.js lines 46-52):
empty, or all digits with `parseInt value <= 360`. -/
def acceptTenure (v : String) : Bool :=
  v == "" || (allDigits v.data && jsLeInt (parseIntJs v) 360)

/-- `handleLoanTenureChange` (App.js lines 46-52). -/
def handleLoanTenureChange (cur v : String) : String :=
  if acceptTenure v then v else cur

/-- The spec's validation-error taxonomy (§7), matching the three alert
branches of `validateInputs`. -/
inductive ValidationError where
  | MissingField
  | NotNumeric
  | NonPositive
deriving DecidableEq

/-- The spec's LoanInput record (§3): parsed numeric values. -/
structure LoanInput where
  principal : ℚ
  annualRatePercent : ℚ
  tenureMonths : ℚ
deriving DecidableEq

/-- `validateInputs` (App.js lines 58-83): empty check (JS string falsiness),
then `parseFloat` on all three fields with a joint NaN check, then the
positivity check `principal <= 0 || rate <= 0 || tenure <= 0`. -/
def validateInputs (loanAmount annualInterestRate loanTenure : String) :
    Except ValidationError LoanInput :=
  if loanAmount = "" ∨ annualInterestRate = "" ∨ loanTenure = "" then
    .error .MissingField
  else
    match parseFloat loanAmount, parseFloat annualInterestRate, parseFloat loanTenure with
    | some principal, some rate, some tenure =>
      if principal ≤ 0 ∨ rate ≤ 0 ∨ tenure ≤ 0 then .error .NonPositive
      else .ok ⟨principal, rate, tenure⟩
    | _, _, _ => .error .NotNumeric

/-- The result object stored by `calculateEMI` (App.js lines 127-132). -/
structure LoanResult where
  loanAmount : ℚ
  monthlyEMI : ℚ
  totalInterest : ℚ
  totalPayment : ℚ
deriving DecidableEq

/-- The computation core of `calculateEMI` (App.js lines 103-124): monthly
rate R = annualRate / 12 / 100; if R = 0 then emi = P/N, totalPayment = P,
totalInterest = 0; otherwise the standard EMI formula with
totalPayment = emi * N and totalInterest = totalPayment - P. -/
def compute (P A : ℚ) (N : ℕ) : LoanResult :=
  let R := A / 12 / 100
  if R = 0 then
    { loanAmount := P, monthlyEMI := P / N, totalInterest := 0, totalPayment := P }
  else
    let pw := (1 + R) ^ N
    let emi := P * R * pw / (pw - 1)
    let totalPayment := emi * N
    { loanAmount := P, monthlyEMI := emi,
      totalInterest := totalPayment - P, totalPayment := totalPayment }

/-- Two-decimal rounding: the value displayed by `formatCurrency`
(App.js lines 143-148, `maximumFractionDigits: 2, minimumFractionDigits: 2`). -/
def round2 (q : ℚ) : ℚ :=
  (round (q * 100) : ℤ) / 100

/-- The React component state (App.js lines 12-16). -/
structure AppState where
  loanAmount : String
  annualInterestRate : String
  loanTenure : String
  result : Option LoanResult
  showResult : Bool
deriving DecidableEq

/-- Initial `useState` values (App.js lines 12-16). -/
def initState : AppState :=
  { loanAmount := "", annualInterestRate := "", loanTenure := "",
    result := none, showResult := false }

/-- Validation followed by computation on raw field strings; `none` is the
error path of `calculateEMI`.  Tenure strings reaching the success path of
the UI are digit strings, so the ℕ conversion of the parsed tenure is exact
there. -/
def runCalc (pa ra ta : String) : Option LoanResult :=
  match validateInputs pa ra ta with
  | .error _ => none
  | .ok li => some (compute li.principal li.annualRatePercent li.tenureMonths.num.toNat)

/-- `calculateEMI` (App.js lines 89-136) as a state transition: on validation
failure only `showResult` is cleared; on success the result is stored and
`showResult` is set. -/
def calculateEMI (s : AppState) : AppState :=
  match runCalc s.loanAmount s.annualInterestRate s.loanTenure with
  | none => { s with showResult := false }
  | some r => { s with result := some r, showResult := true }

/-- User events: typing into one of the three fields, or pressing the
Calculate button. -/
inductive Action where
  | setLoanAmount (v : String)
  | setInterestRate (v : String)
  | setLoanTenure (v : String)
  | pressCalculate

/-- One UI step: a change handler or the Calculate button handler. -/
def step (s : AppState) : Action → AppState
  | .setLoanAmount v => { s with loanAmount := handleLoanAmountChange s.loanAmount v }
  | .setInterestRate v =>
      { s with annualInterestRate := handleInterestRateChange s.annualInterestRate v }
  | .setLoanTenure v => { s with loanTenure := handleLoanTenureChange s.loanTenure v }
  | .pressCalculate => calculateEMI s

/-- States reachable from the initial state by any event sequence. -/
inductive Reachable : AppState → Prop
  | init : Reachable initState
  | next : ∀ s a, Reachable s → Reachable (step s a)

/-- Present value of an N-month annuity of 1 at monthly rate R; the EMI
formula is P divided by this sum. -/
def annuityPV (R : ℚ) (N : ℕ) : ℚ :=
  ∑ k in Finset.range N, (1 / (1 + R)) ^ (k + 1)

/-- Policy bound on the stored principal string (spec §4.1): empty, or an
integer digit string of at most 7 digits, hence value at most 9,999,999. -/
def amountInv (s : String) : Prop :=
  s = "" ∨ (allDigits s.data = true ∧ s.data.length ≤ 7 ∧ natFromDigits s.data ≤ 9999999)

/-- Policy bound on the stored rate string (spec §4.1): empty, or a decimal
with at most two fraction digits whose parsed value is at most 100. -/
def rateInv (s : String) : Prop :=
  s = "" ∨ (rateShape s.data = true ∧ ∃ q, parseFloat s = some q ∧ q ≤ 100)

/-- Policy bound on the stored tenure string (spec §4.1): empty, or an
integer digit string with value at most 360. -/
def tenureInv (s : String) : Prop :=
  s = "" ∨ (allDigits s.data = true ∧ natFromDigits s.data ≤ 360)

/-- A result that was produced by `compute` from field strings that passed
`validateInputs`. -/
def validResult (r : LoanResult) : Prop :=
  ∃ pa ra ta li, validateInputs pa ra ta = Except.ok li ∧
    r = compute li.principal li.annualRatePercent li.tenureMonths.num.toNat

/-- A concrete state whose fields fail validation (empty principal) while a
result is showing. -/
def errState : AppState :=
  { loanAmount := "", annualInterestRate := "5", loanTenure := "12",
    result := none, showResult := true }

end EMI

namespace EMI

theorem digit_char_facts (c : Char) (h : c.isDigit = true) :
    c ≠ '+' ∧ c ≠ '-' ∧ c.isWhitespace = false := by
  refine ⟨fun hc => ?_, fun hc => ?_, ?_⟩
  · subst hc; exact absurd h (by decide)
  · subst hc; exact absurd h (by decide)
  · cases hw : c.isWhitespace
    · rfl
    · exfalso
      have hd : ((c = ' ' ∨ c = '\t') ∨ c = '\r') ∨ c = '\n' := by
        simpa [Char.isWhitespace] using hw
      rcases hd with ((h1 | h1) | h1) | h1 <;> subst h1 <;> exact absurd h (by decide)

theorem digit_toNat_bound (c : Char) (h : c.isDigit = true) :
    48 ≤ c.toNat ∧ c.toNat ≤ 57 := by
  simp only [Char.isDigit, Bool.and_eq_true, decide_eq_true_eq] at h
  obtain ⟨h1, h2⟩ := h
  constructor
  · simpa [UInt32.le_def, BitVec.le_def, Char.toNat, UInt32.toNat] using h1
  · simpa [UInt32.le_def, BitVec.le_def, Char.toNat, UInt32.toNat] using h2

theorem allDigits_parts (l : List Char) (h : allDigits l = true) :
    l.isEmpty = false ∧ l.all Char.isDigit = true := by
  rw [allDigits, Bool.and_eq_true, Bool.not_eq_true'] at h
  exact h

theorem takeWhile_digits : ∀ (l : List Char), l.all Char.isDigit = true →
    l.takeWhile Char.isDigit = l
  | [], _ => rfl
  | c :: rest, h => by
    rw [List.all_cons, Bool.and_eq_true] at h
    rw [List.takeWhile_cons_of_pos h.1, takeWhile_digits rest h.2]

theorem dropWhile_digits : ∀ (l : List Char), l.all Char.isDigit = true →
    l.dropWhile Char.isDigit = []
  | [], _ => rfl
  | c :: rest, h => by
    rw [List.all_cons, Bool.and_eq_true] at h
    rw [List.dropWhile_cons_of_pos h.1, dropWhile_digits rest h.2]

theorem dropWhite_digits (l : List Char) (h : allDigits l = true) :
    l.dropWhile Char.isWhitespace = l := by
  rcases l with _ | ⟨c, rest⟩
  · rfl
  · have hall := (allDigits_parts _ h).2
    rw [List.all_cons, Bool.and_eq_true] at hall
    have hw := (digit_char_facts c hall.1).2.2
    exact List.dropWhile_cons_of_neg (by simp [hw])

theorem parseFloatCore_digits (l : List Char) (h : allDigits l = true) :
    parseFloatCore l = some ((natFromDigits l : ℚ)) := by
  obtain ⟨hne, hall⟩ := allDigits_parts l h
  rcases l with _ | ⟨c, rest⟩
  · simp at hne
  · rw [List.all_cons, Bool.and_eq_true] at hall
    obtain ⟨hp, hm, _⟩ := digit_char_facts c hall.1
    have hsign : parseSign (c :: rest) = (false, c :: rest) := by
      simp [parseSign, hp, hm]
    have htake := takeWhile_digits (c :: rest) (by rw [List.all_cons, Bool.and_eq_true]; exact hall)
    have hdrop := dropWhile_digits (c :: rest) (by rw [List.all_cons, Bool.and_eq_true]; exact hall)
    simp [parseFloatCore, hsign, htake, hdrop, show natFromDigits [] = 0 from rfl]

theorem parseFloat_digits (s : String) (h : allDigits s.data = true) :
    parseFloat s = some ((natFromDigits s.data : ℚ)) := by
  rw [parseFloat, dropWhite_digits s.data h, parseFloatCore_digits s.data h]

theorem parseIntJs_digits (s : String) (h : allDigits s.data = true) :
    parseIntJs s = some ((natFromDigits s.data : ℤ)) := by
  obtain ⟨hne, hall⟩ := allDigits_parts s.data h
  obtain ⟨c, rest, hcr⟩ : ∃ c rest, s.data = c :: rest := by
    rcases hd : s.data with _ | ⟨c, rest⟩
    · rw [hd] at hne; simp at hne
    · exact ⟨c, rest, rfl⟩
  rw [hcr] at hall
  rw [List.all_cons, Bool.and_eq_true] at hall
  obtain ⟨hp, hm, _⟩ := digit_char_facts c hall.1
  have hsign : parseSign (c :: rest) = (false, c :: rest) := by
    simp [parseSign, hp, hm]
  have htake := takeWhile_digits (c :: rest) (by rw [List.all_cons, Bool.and_eq_true]; exact hall)
  rw [parseIntJs, dropWhite_digits s.data h, hcr]
  simp [hsign, htake, hcr]

theorem natFromDigits_aux : ∀ (l : List Char) (a : ℕ), l.all Char.isDigit = true →
    l.foldl (fun a c => 10 * a + (c.toNat - 48)) a < (a + 1) * 10 ^ l.length
  | [], a, _ => by simp
  | c :: rest, a, h => by
    rw [List.all_cons, Bool.and_eq_true] at h
    have hd := digit_toNat_bound c h.1
    have hrec := natFromDigits_aux rest (10 * a + (c.toNat - 48)) h.2
    have hstep : 10 * a + (c.toNat - 48) + 1 ≤ (a + 1) * 10 := by omega
    calc (c :: rest).foldl (fun a c => 10 * a + (c.toNat - 48)) a
        = rest.foldl (fun a c => 10 * a + (c.toNat - 48)) (10 * a + (c.toNat - 48)) := rfl
      _ < (10 * a + (c.toNat - 48) + 1) * 10 ^ rest.length := hrec
      _ ≤ ((a + 1) * 10) * 10 ^ rest.length := Nat.mul_le_mul_right _ hstep
      _ = (a + 1) * 10 ^ (c :: rest).length := by
          rw [List.length_cons, pow_succ]; ring

theorem natFromDigits_lt (l : List Char) (h : l.all Char.isDigit = true) :
    natFromDigits l < 10 ^ l.length := by
  have := natFromDigits_aux l 0 h
  simpa [natFromDigits] using this

end EMI
namespace EMI

theorem annuityPV_eq (R : ℚ) (N : ℕ) (hR : 0 < R) :
    annuityPV R N = ((1 + R) ^ N - 1) / ((1 + R) ^ N * R) := by
  have hx : (0 : ℚ) < 1 + R := by linarith
  have hx0 : (1 + R) ≠ 0 := ne_of_gt hx
  have hR0 : R ≠ 0 := ne_of_gt hR
  have hy1 : (1 / (1 + R)) ≠ 1 := by
    intro hcon
    rw [div_eq_one_iff_eq hx0] at hcon
    linarith
  have hy1' : (1 / (1 + R)) - 1 ≠ 0 := sub_ne_zero.mpr hy1
  have hxN : (1 + R) ^ N ≠ 0 := pow_ne_zero N hx0
  calc annuityPV R N
      = (∑ k in Finset.range N, (1 / (1 + R)) ^ k) * (1 / (1 + R)) := by
        rw [annuityPV]
        simp only [pow_succ]
        rw [← Finset.sum_mul]
    _ = ((1 / (1 + R)) ^ N - 1) / ((1 / (1 + R)) - 1) * (1 / (1 + R)) := by
        rw [geom_sum_eq hy1]
    _ = ((1 + R) ^ N - 1) / ((1 + R) ^ N * R) := by
        rw [div_pow, one_pow]
        field_simp
        ring

theorem annuityPV_pos (R : ℚ) (N : ℕ) (hR : 0 < R) (hN : 1 ≤ N) :
    0 < annuityPV R N := by
  have hx : (0 : ℚ) < 1 + R := by linarith
  refine Finset.sum_pos (fun k _ => ?_) ?_
  · exact pow_pos (by positivity) _
  · exact Finset.nonempty_range_iff.mpr (by omega)

theorem annuityPV_lt (R₁ R₂ : ℚ) (N : ℕ) (h1 : 0 < R₁) (h12 : R₁ < R₂) (hN : 1 ≤ N) :
    annuityPV R₂ N < annuityPV R₁ N := by
  have hx1 : (0 : ℚ) < 1 + R₁ := by linarith
  have hx2 : (0 : ℚ) < 1 + R₂ := by linarith
  refine Finset.sum_lt_sum_of_nonempty (Finset.nonempty_range_iff.mpr (by omega))
    (fun k _ => ?_)
  have hlt : 1 / (1 + R₂) < 1 / (1 + R₁) :=
    div_lt_div_of_pos_left one_pos hx1 (by linarith)
  exact pow_lt_pow_left₀ hlt (by positivity) (by omega)

theorem compute_emi_eq_div (P A : ℚ) (N : ℕ) (hA : 0 < A) (hN : 1 ≤ N) :
    (compute P A N).monthlyEMI = P / annuityPV (A / 12 / 100) N := by
  have hR : 0 < A / 12 / 100 := by positivity
  have hR0 : A / 12 / 100 ≠ 0 := ne_of_gt hR
  have hx : (0 : ℚ) < 1 + A / 12 / 100 := by linarith
  have hx0 : (1 + A / 12 / 100) ≠ 0 := ne_of_gt hx
  have hxN1 : 1 < (1 + A / 12 / 100) ^ N := by
    refine one_lt_pow₀ ?_ (by omega)
    linarith
  have hxNsub : (1 + A / 12 / 100) ^ N - 1 ≠ 0 := by
    intro hcon
    have : (1 + A / 12 / 100) ^ N = 1 := by linarith
    rw [this] at hxN1
    exact lt_irrefl 1 hxN1
  have hxN : (1 + A / 12 / 100) ^ N ≠ 0 := pow_ne_zero N hx0
  rw [annuityPV_eq _ _ hR]
  simp only [compute, if_neg hR0]
  rw [div_div_eq_mul_div]
  ring

end EMI
namespace EMI

/-- Claim C1: the spec says `validateInputs` fails with NonPositive exactly
when principal ≤ 0, rate < 0 or tenure ≤ 0, so a zero rate with positive
principal and tenure would be accepted.  The code instead tests
`rate <= 0` (App.js line 77) and rejects the zero rate that its own R = 0
branch (App.js line 110) and the README's zero-interest test case expect to
reach the computation: at principal "100", rate "0", tenure "12" validation
answers NonPositive instead of succeeding. -/
theorem validateInputs_rejects_zero_rate :
    validateInputs "100" "0" "12" = Except.error ValidationError.NonPositive := by
  have e1 := parseFloat_digits "100" (by decide)
  have e2 := parseFloat_digits "0" (by decide)
  have e3 := parseFloat_digits "12" (by decide)
  rw [show natFromDigits "100".data = 100 from by decide] at e1
  rw [show natFromDigits "0".data = 0 from by decide] at e2
  rw [show natFromDigits "12".data = 12 from by decide] at e3
  simp [validateInputs, e1, e2, e3]

/-- Claim C2 (counterexample): at P = 100000, rate = 0, N = 12 the computed
monthly installment is 100000/12, which is not the spec's literal 8333.33. -/
theorem compute_zero_rate_not_exact :
    (compute 100000 0 12).monthlyEMI ≠ 833333 / 100 := by
  norm_num [compute]

/-- Claim C2 (amended): for a zero rate `compute` returns exactly
monthlyInstallment = P / N, totalInterest = 0 and totalPayment = P; the
P = 100000, N = 12 scenario yields 100000/12 = 25000/3, which displays as
8333.33 after the two-decimal currency rounding, and N = 1 yields P. -/
theorem compute_zero_rate_spec (P : ℚ) (N : ℕ) (_hN : 1 ≤ N) :
    compute P 0 N =
      { loanAmount := P, monthlyEMI := P / N, totalInterest := 0, totalPayment := P } ∧
    (compute 100000 0 12).monthlyEMI = 25000 / 3 ∧
    round2 (compute 100000 0 12).monthlyEMI = 833333 / 100 ∧
    (compute P 0 1).monthlyEMI = P := by
  refine ⟨by simp [compute], by norm_num [compute], ?_, by simp [compute]⟩
  have h1 : (compute 100000 0 12).monthlyEMI = 25000 / 3 := by norm_num [compute]
  rw [h1, round2, round_eq]
  norm_num

/-- Witness for C2 at P = 5, N = 12. -/
theorem compute_zero_rate_spec_witness :
    compute 5 0 12 =
      { loanAmount := 5, monthlyEMI := 5 / (12 : ℕ), totalInterest := 0, totalPayment := 5 } :=
  (compute_zero_rate_spec 5 12 (by norm_num)).1

/-- Claim C3: for a positive annual rate A, `compute` uses the monthly rate
R = A / 12 / 100 and returns monthlyInstallment = P·R·(1+R)^N / ((1+R)^N − 1),
totalPayment = monthlyInstallment · N and totalInterest = totalPayment − P. -/
theorem compute_positive_rate_formula (P A : ℚ) (N : ℕ) (hA : 0 < A) :
    compute P A N =
      { loanAmount := P,
        monthlyEMI := P * (A / 12 / 100) * (1 + A / 12 / 100) ^ N /
          ((1 + A / 12 / 100) ^ N - 1),
        totalInterest := P * (A / 12 / 100) * (1 + A / 12 / 100) ^ N /
          ((1 + A / 12 / 100) ^ N - 1) * N - P,
        totalPayment := P * (A / 12 / 100) * (1 + A / 12 / 100) ^ N /
          ((1 + A / 12 / 100) ^ N - 1) * N } := by
  have hR : A / 12 / 100 ≠ 0 := by positivity
  simp [compute, hR]

/-- Witness for C3 at P = 1000, A = 12, N = 2. -/
theorem compute_positive_rate_formula_witness :
    compute 1000 12 2 =
      { loanAmount := 1000,
        monthlyEMI := 1000 * ((12 : ℚ) / 12 / 100) * (1 + (12 : ℚ) / 12 / 100) ^ (2 : ℕ) /
          ((1 + (12 : ℚ) / 12 / 100) ^ (2 : ℕ) - 1),
        totalInterest := 1000 * ((12 : ℚ) / 12 / 100) * (1 + (12 : ℚ) / 12 / 100) ^ (2 : ℕ) /
          ((1 + (12 : ℚ) / 12 / 100) ^ (2 : ℕ) - 1) * (2 : ℕ) - 1000,
        totalPayment := 1000 * ((12 : ℚ) / 12 / 100) * (1 + (12 : ℚ) / 12 / 100) ^ (2 : ℕ) /
          ((1 + (12 : ℚ) / 12 / 100) ^ (2 : ℕ) - 1) * (2 : ℕ) } :=
  compute_positive_rate_formula 1000 12 2 (by norm_num)

/-- Claim C4: for every valid input (P > 0, A ≥ 0, N ≥ 1) the result of
`compute` satisfies totalPayment = principal + totalInterest and
totalPayment = monthlyInstallment · N, in both branches; in the exact
rational model the identities hold with equality (hence within any
floating-point tolerance). -/
theorem compute_payment_identities (P A : ℚ) (N : ℕ)
    (_hP : 0 < P) (_hA : 0 ≤ A) (hN : 1 ≤ N) :
    (compute P A N).totalPayment = P + (compute P A N).totalInterest ∧
    (compute P A N).totalPayment = (compute P A N).monthlyEMI * N := by
  have hN0 : (N : ℚ) ≠ 0 := Nat.cast_ne_zero.mpr (by omega)
  by_cases hz : A / 12 / 100 = 0
  · simp [compute, hz, div_mul_cancel₀ P hN0]
  · simp only [compute, if_neg hz]
    constructor <;> ring

/-- Witness for C4 at P = 100, A = 6, N = 2. -/
theorem compute_payment_identities_witness :
    (compute 100 6 2).totalPayment = 100 + (compute 100 6 2).totalInterest ∧
    (compute 100 6 2).totalPayment = (compute 100 6 2).monthlyEMI * (2 : ℕ) :=
  compute_payment_identities 100 6 2 (by norm_num) (by norm_num) (by norm_num)

/-- Claim C5 (counterexample): at P = 500000, annual rate 10.5, N = 60 the
formula output is about 10746.95, not near the spec's literal 10708.41:
the difference exceeds 38. -/
theorem compute_scenario_emi_ne_spec_literal :
    ¬ |(compute 500000 (21 / 2) 60).monthlyEMI - 1070841 / 100| < 1 / 100 := by
  have hR : (21 / 2 : ℚ) / 12 / 100 ≠ 0 := by norm_num
  rw [abs_lt]
  norm_num [compute, hR]

/-- Claim C5 (amended): at P = 500000, annual rate 10.5, N = 60 the monthly
installment equals the stated formula output with R = 10.5/12/100, which is
approximately 10746.95 (within 0.005, so it displays as 10,746.95). -/
theorem compute_scenario_emi_value :
    (compute 500000 (21 / 2) 60).monthlyEMI =
      500000 * ((21 / 2 : ℚ) / 12 / 100) * (1 + (21 / 2 : ℚ) / 12 / 100) ^ (60 : ℕ) /
        ((1 + (21 / 2 : ℚ) / 12 / 100) ^ (60 : ℕ) - 1) ∧
    |(compute 500000 (21 / 2) 60).monthlyEMI - 1074695 / 100| < 1 / 200 := by
  have hR : (21 / 2 : ℚ) / 12 / 100 ≠ 0 := by norm_num
  constructor
  · norm_num [compute, hR]
  · rw [abs_lt]
    norm_num [compute, hR]

/-- Claim C6: holding P > 0 and N ≥ 1 fixed, the monthly installment
returned by `compute` is strictly increasing in the annual rate on rates
greater than zero. -/
theorem compute_emi_strictMono_in_rate (P A₁ A₂ : ℚ) (N : ℕ)
    (hP : 0 < P) (hN : 1 ≤ N) (h1 : 0 < A₁) (h12 : A₁ < A₂) :
    (compute P A₁ N).monthlyEMI < (compute P A₂ N).monthlyEMI := by
  have h2 : 0 < A₂ := lt_trans h1 h12
  have hR1 : 0 < A₁ / 12 / 100 := by positivity
  have hR2 : 0 < A₂ / 12 / 100 := by positivity
  have hRlt : A₁ / 12 / 100 < A₂ / 12 / 100 := by linarith
  rw [compute_emi_eq_div P A₁ N h1 hN, compute_emi_eq_div P A₂ N h2 hN]
  have hS2 : 0 < annuityPV (A₂ / 12 / 100) N := annuityPV_pos _ _ hR2 hN
  have hSlt : annuityPV (A₂ / 12 / 100) N < annuityPV (A₁ / 12 / 100) N :=
    annuityPV_lt _ _ _ hR1 hRlt hN
  exact div_lt_div_of_pos_left hP hS2 hSlt

/-- Witness for C6 at P = 1000, N = 12, rates 6 and 12. -/
theorem compute_emi_strictMono_in_rate_witness :
    (compute 1000 6 12).monthlyEMI < (compute 1000 12 12).monthlyEMI :=
  compute_emi_strictMono_in_rate 1000 6 12 12 (by norm_num) (by norm_num)
    (by norm_num) (by norm_num)

/-- Claim C7: whenever the stored field strings fail validation, pressing
Calculate clears the visibility flag and leaves the stored result unchanged;
no new LoanResult is produced on the error path. -/
theorem calculateEMI_error_path (s : AppState) (e : ValidationError)
    (h : validateInputs s.loanAmount s.annualInterestRate s.loanTenure = Except.error e) :
    (calculateEMI s).showResult = false ∧ (calculateEMI s).result = s.result := by
  simp [calculateEMI, runCalc, h]

/-- Witness for C7: empty principal with a previously shown result. -/
theorem calculateEMI_error_path_witness :
    (calculateEMI errState).showResult = false ∧
    (calculateEMI errState).result = errState.result :=
  calculateEMI_error_path errState ValidationError.MissingField (by rfl)

end EMI
namespace EMI

theorem jsLe_some (x : Option ℚ) (b : ℚ) (h : jsLe x b = true) :
    ∃ q, x = some q ∧ q ≤ b := by
  rcases x with _ | q
  · simp [jsLe] at h
  · exact ⟨q, rfl, by simpa [jsLe] using h⟩

theorem jsLeInt_some (x : Option ℤ) (b : ℤ) (h : jsLeInt x b = true) :
    ∃ n, x = some n ∧ n ≤ b := by
  rcases x with _ | n
  · simp [jsLeInt] at h
  · exact ⟨n, rfl, by simpa [jsLeInt] using h⟩

theorem accept_amount_inv (v : String) (h : acceptAmount v = true) : amountInv v := by
  rw [acceptAmount, Bool.or_eq_true] at h
  rcases h with h | h
  · exact Or.inl (by simpa using h)
  · rw [Bool.and_eq_true, decide_eq_true_eq] at h
    obtain ⟨hd, hlen⟩ := h
    refine Or.inr ⟨hd, hlen, ?_⟩
    have hlt := natFromDigits_lt v.data (allDigits_parts _ hd).2
    have hpow : 10 ^ v.data.length ≤ 10 ^ 7 := Nat.pow_le_pow_right (by norm_num) hlen
    omega

theorem accept_rate_inv (v : String) (h : acceptRate v = true) : rateInv v := by
  rw [acceptRate, Bool.or_eq_true] at h
  rcases h with h | h
  · exact Or.inl (by simpa using h)
  · rw [Bool.and_eq_true] at h
    obtain ⟨hle, hshape⟩ := h
    obtain ⟨q, hq, hqb⟩ := jsLe_some _ _ hle
    exact Or.inr ⟨hshape, q, hq, hqb⟩

theorem accept_tenure_inv (v : String) (h : acceptTenure v = true) : tenureInv v := by
  rw [acceptTenure, Bool.or_eq_true] at h
  rcases h with h | h
  · exact Or.inl (by simpa using h)
  · rw [Bool.and_eq_true] at h
    obtain ⟨hd, hle⟩ := h
    obtain ⟨n, hn, hnb⟩ := jsLeInt_some _ _ hle
    rw [parseIntJs_digits v hd] at hn
    refine Or.inr ⟨hd, ?_⟩
    have : ((natFromDigits v.data : ℤ)) = n := by injection hn
    rw [← this] at hnb
    exact_mod_cast hnb

/-- Claim C8: each change handler preserves its policy bound on the stored
string (principal: digit string of at most 7 digits so at most 9,999,999;
rate: decimal with at most two fraction digits and value at most 100;
tenure: digit string with value at most 360), and any entered value that
fails the handler's acceptance test leaves the stored string unchanged. -/
theorem handlers_preserve_bounds (cur v : String) :
    (amountInv cur → amountInv (handleLoanAmountChange cur v)) ∧
    (acceptAmount v = false → handleLoanAmountChange cur v = cur) ∧
    (rateInv cur → rateInv (handleInterestRateChange cur v)) ∧
    (acceptRate v = false → handleInterestRateChange cur v = cur) ∧
    (tenureInv cur → tenureInv (handleLoanTenureChange cur v)) ∧
    (acceptTenure v = false → handleLoanTenureChange cur v = cur) := by
  refine ⟨?_, ?_, ?_, ?_, ?_, ?_⟩
  · intro hc
    rw [handleLoanAmountChange]
    cases ha : acceptAmount v
    · simpa [ha] using hc
    · simpa [ha] using accept_amount_inv v ha
  · intro hf; simp [handleLoanAmountChange, hf]
  · intro hc
    rw [handleInterestRateChange]
    cases ha : acceptRate v
    · simpa [ha] using hc
    · simpa [ha] using accept_rate_inv v ha
  · intro hf; simp [handleInterestRateChange, hf]
  · intro hc
    rw [handleLoanTenureChange]
    cases ha : acceptTenure v
    · simpa [ha] using hc
    · simpa [ha] using accept_tenure_inv v ha
  · intro hf; simp [handleLoanTenureChange, hf]

/-- Witness for C8: an accepted principal keystroke satisfies the bound and
an over-limit tenure keystroke is ignored. -/
theorem handlers_preserve_bounds_witness :
    amountInv (handleLoanAmountChange "" "4567") ∧
    handleLoanTenureChange "12" "999" = "12" :=
  ⟨(handlers_preserve_bounds "" "4567").1 (Or.inl rfl),
   (handlers_preserve_bounds "12" "999").2.2.2.2.2 (by decide)⟩

/-- Claim C10: for any triple of field strings the three change handlers
accept (hence for every reachable input state), validation never answers
NotNumeric: empty fields give MissingField, and non-empty accepted fields
always parse to numbers, leaving only NonPositive or success. -/
theorem validateInputs_never_notNumeric (pa ra ta : String)
    (hp : acceptAmount pa = true) (hr : acceptRate ra = true)
    (ht : acceptTenure ta = true) :
    validateInputs pa ra ta ≠ Except.error ValidationError.NotNumeric := by
  by_cases hpe : pa = ""
  · simp [validateInputs, hpe]
  by_cases hre : ra = ""
  · simp [validateInputs, hre]
  by_cases hte : ta = ""
  · simp [validateInputs, hte]
  have hp' : allDigits pa.data = true := by
    rcases accept_amount_inv pa hp with h | h
    · exact absurd h hpe
    · exact h.1
  have ht' : allDigits ta.data = true := by
    rcases accept_tenure_inv ta ht with h | h
    · exact absurd h hte
    · exact h.1
  obtain ⟨qr, hqr, _⟩ : ∃ q, parseFloat ra = some q ∧ q ≤ 100 := by
    rcases accept_rate_inv ra hr with h | h
    · exact absurd h hre
    · exact h.2
  have pf1 := parseFloat_digits pa hp'
  have pf3 := parseFloat_digits ta ht'
  simp only [validateInputs, pf1, hqr, pf3]
  rw [if_neg (by simp [hpe, hre, hte])]
  split <;> simp

/-- Witness for C10 at accepted fields ("100", "0", "12"). -/
theorem validateInputs_never_notNumeric_witness :
    acceptAmount "100" = true ∧ acceptRate "0" = true ∧ acceptTenure "12" = true ∧
    validateInputs "100" "0" "12" ≠ Except.error ValidationError.NotNumeric := by
  have h0 : acceptRate "0" = true := by
    have e2 := parseFloat_digits "0" (by decide)
    rw [show natFromDigits "0".data = 0 from by decide] at e2
    simp [acceptRate, e2, jsLe]
    decide
  exact ⟨by decide, h0, by decide,
    validateInputs_never_notNumeric "100" "0" "12" (by decide) h0 (by decide)⟩

end EMI
namespace EMI

/-- Claim C9: in every reachable state, when the visibility flag is set the
stored result is non-null and was produced by `compute` from field strings
that passed `validateInputs`; the flag only becomes true in the same step
that stores such a result. -/
theorem showResult_implies_valid_result (s : AppState) (hs : Reachable s) :
    s.showResult = true → ∃ r, s.result = some r ∧ validResult r := by
  induction hs with
  | init => intro h; simp [initState] at h
  | next s a _ ih =>
    intro h
    cases a with
    | setLoanAmount v =>
      simp only [step] at h ⊢
      exact ih h
    | setInterestRate v =>
      simp only [step] at h ⊢
      exact ih h
    | setLoanTenure v =>
      simp only [step] at h ⊢
      exact ih h
    | pressCalculate =>
      simp only [step, calculateEMI] at h ⊢
      rcases hrc : runCalc s.loanAmount s.annualInterestRate s.loanTenure with _ | r
      · rw [hrc] at h; simp at h
      · rw [hrc] at h
        refine ⟨r, rfl, ?_⟩
        rw [runCalc] at hrc
        rcases hv : validateInputs s.loanAmount s.annualInterestRate s.loanTenure with e | li
        · rw [hv] at hrc; simp at hrc
        · rw [hv] at hrc
          simp only [Option.some.injEq] at hrc
          exact ⟨s.loanAmount, s.annualInterestRate, s.loanTenure, li, hv, hrc.symm⟩

/-- Witness for C9: the state reached by typing 100000 / 10.5 / 12 and
pressing Calculate shows a validly produced result. -/
theorem showResult_implies_valid_result_witness :
    ∃ r, (step (step (step (step initState (Action.setLoanAmount "100000"))
        (Action.setInterestRate "10.5")) (Action.setLoanTenure "12"))
        Action.pressCalculate).result = some r ∧ validResult r := by
  have hrate : acceptRate "10.5" = true := by
    have e : parseFloat "10.5" = some (21 / 2) := by
      simp [parseFloat, parseFloatCore, parseSign, parseExpSigned, natFromDigits]
      norm_num
    have hshape : rateShape "10.5".data = true := by decide
    simp [acceptRate, e, jsLe, hshape]
    all_goals norm_num
  have h3 : step (step (step initState (Action.setLoanAmount "100000"))
      (Action.setInterestRate "10.5")) (Action.setLoanTenure "12") =
      { loanAmount := "100000", annualInterestRate := "10.5", loanTenure := "12",
        result := none, showResult := false } := by
    simp [step, initState, handleLoanAmountChange, handleInterestRateChange,
      handleLoanTenureChange, hrate, show acceptAmount "100000" = true from by decide,
      show acceptTenure "12" = true from by decide]
  have hv : validateInputs "100000" "10.5" "12" =
      Except.ok ⟨100000, 21 / 2, 12⟩ := by
    have e1 := parseFloat_digits "100000" (by decide)
    have e2 : parseFloat "10.5" = some (21 / 2) := by
      simp [parseFloat, parseFloatCore, parseSign, parseExpSigned, natFromDigits]
      norm_num
    have e3 := parseFloat_digits "12" (by decide)
    rw [show natFromDigits "100000".data = 100000 from by decide] at e1
    rw [show natFromDigits "12".data = 12 from by decide] at e3
    simp [validateInputs, e1, e2, e3]
  have hrc : runCalc "100000" "10.5" "12" =
      some (compute 100000 (21 / 2) ((12 : ℚ).num.toNat)) := by
    simp [runCalc, hv]
  apply showResult_implies_valid_result
  · exact Reachable.next _ _ (Reachable.next _ _ (Reachable.next _ _
      (Reachable.next _ _ Reachable.init)))
  · rw [h3]
    simp [step, calculateEMI, hrc]

end EMI
